import Mathlib

/-!
Verification of the Audio-Emotion repository.

The repository ships a Next.js frontend (frontend/src/app/page.tsx, in two
revisions with identical handler logic) and documents a FastAPI backend
(README).  The frontend handlers (handleFileChange, handleDrop, handleSubmit),
the PredictionResult record, the form-data construction and the result
rendering are embedded below directly from the TypeScript source.  The backend
prediction pipeline itself is not part of the checked-in source, so it is
modelled from the specification (each such definition is marked
"Modelled from the spec").

Modelling conventions:
- JavaScript strings used as file names are modelled as lists of characters,
  so that toLowerCase/endsWith become List.map Char.toLower / List.isSuffixOf.
- Floating-point numbers are modelled as rationals.
- External effects (audio decoding, the openSMILE subprocess, the pretrained
  model artifacts, the wall clock) are modelled as components of an explicit
  environment record, so the pipeline itself is a pure function of the
  environment and the request.
-/

/-- The result record returned by the backend, as declared by the
PredictionResult interface in page.tsx: emotion (string), confidence
(number or null), model_used (string), processing_time_ms (number),
timestamp (string).  Numbers are modelled as rationals. -/
structure PredictionResult where
  emotion : String
  confidence : Option ℚ
  model_used : String
  processing_time_ms : ℚ
  timestamp : String
deriving DecidableEq

/-- An uploaded file; the handlers only inspect its name
(file.name in page.tsx), modelled as a list of characters. -/
structure FileRec where
  name : List Char
deriving DecidableEq

/-- Model of JavaScript String.prototype.toLowerCase on a file name. -/
def lowerName (s : List Char) : List Char := s.map Char.toLower

/-- Model of JavaScript String.prototype.endsWith: the suffix test. -/
def endsWithChars (s post : List Char) : Bool := post.isSuffixOf s

/-- The literal ".mp3" tested by the handlers. -/
def mp3Ext : List Char := ".mp3".data

/-- The literal ".wav" tested by the handlers. -/
def wavExt : List Char := ".wav".data

/-- The acceptance test shared by handleFileChange and handleDrop:
file.name.toLowerCase().endsWith(".mp3") || file.name.toLowerCase().endsWith(".wav"). -/
def isValidAudioName (n : List Char) : Bool :=
  endsWithChars (lowerName n) mp3Ext || endsWithChars (lowerName n) wavExt

/-- The error message set by both handlers for a rejected file. -/
def unsupportedFileError : String := "Please upload a valid MP3 or WAV file"

/-- The component state touched by the file-selection handlers:
audioFile, error and (in the drag-and-drop revision) isDragging. -/
structure UploadState where
  audioFile : Option FileRec
  error : String
  isDragging : Bool
deriving DecidableEq

/-- handleFileChange from page.tsx, for the case where a file is present in
the change event: accept the file and clear the error when the lowercased
name ends in ".mp3" or ".wav", otherwise set the unsupported-format error
and null out the stored file. -/
def handleFileChange (st : UploadState) (f : FileRec) : UploadState :=
  if isValidAudioName f.name then { st with audioFile := some f, error := "" }
  else { st with error := unsupportedFileError, audioFile := none }

/-- handleDrop from the drag-and-drop revision of page.tsx: clears the
isDragging flag and then performs exactly the handleFileChange validation
on the dropped file. -/
def handleDrop (st : UploadState) (f : FileRec) : UploadState :=
  let st0 : UploadState := { st with isDragging := false }
  if isValidAudioName f.name then { st0 with audioFile := some f, error := "" }
  else { st0 with error := unsupportedFileError, audioFile := none }

/-- The error message of the missing-file guard in handleSubmit. -/
def noFileError : String := "Please select an audio file"

/-- The error message of the missing-model guard in handleSubmit. -/
def noModelError : String := "Please select a model"

/-- The fallback error message used when the failed response carries no
truthy detail string. -/
def genericPredictError : String := "Prediction failed. Please try again."

/-- The outcome of the awaited axios.post in handleSubmit: either a parsed
PredictionResult or a failure carrying an optional detail string
(err.response?.data?.detail). -/
inductive RequestOutcome where
  | success (r : PredictionResult)
  | failure (detail : Option String)
deriving DecidableEq

/-- The message assigned on a failed request:
err.response?.data?.detail || "Prediction failed. Please try again.".
A missing or empty (falsy) detail selects the fallback. -/
def failureMessage (detail : Option String) : String :=
  match detail with
  | some d => if d = "" then genericPredictError else d
  | none => genericPredictError

/-- The component state touched by handleSubmit. -/
structure SubmitState where
  audioFile : Option FileRec
  selectedModel : String
  isLoading : Bool
  result : Option PredictionResult
  error : String
deriving DecidableEq

/-- handleSubmit from page.tsx.  The guards return early after only setting
an error; past the guards, the handler sets isLoading, clears the error and
the result, performs the request, stores the result on success or an error
message on failure, and finally clears isLoading. -/
def handleSubmit (st : SubmitState) (outcome : RequestOutcome) : SubmitState :=
  match st.audioFile with
  | none => { st with error := noFileError }
  | some _ =>
    if st.selectedModel = "" then { st with error := noModelError }
    else
      let st1 : SubmitState := { st with isLoading := true, error := "", result := none }
      let st2 : SubmitState :=
        match outcome with
        | .success r => { st1 with result := some r }
        | .failure d => { st1 with error := failureMessage d }
      { st2 with isLoading := false }

/-- A value appended to the multipart form: the file object or a string. -/
inductive FormValue where
  | fileVal (f : FileRec)
  | strVal (s : String)
deriving DecidableEq

/-- The FormData assembled by handleSubmit: file and model_name always, and
each chorus bound independently, appended exactly when its state string is
truthy (non-empty). -/
def buildFormData (f : FileRec) (modelName chorusStart chorusEnd : String) :
    List (String × FormValue) :=
  [("file", FormValue.fileVal f), ("model_name", FormValue.strVal modelName)]
    ++ (if chorusStart ≠ "" then [("chorus_start", FormValue.strVal chorusStart)] else [])
    ++ (if chorusEnd ≠ "" then [("chorus_end", FormValue.strVal chorusEnd)] else [])

/-- The render guard of the confidence section in page.tsx:
result.confidence !== null && (...). -/
def showsConfidenceSection (r : PredictionResult) : Bool := r.confidence.isSome

/-- The percentage value displayed inside the confidence section
(result.confidence * 100), present exactly when the section renders. -/
def confidenceDisplayPercent (r : PredictionResult) : Option ℚ :=
  r.confidence.map (fun c => c * 100)

/-- The color table of getEmotionColor in page.tsx; its keys are the fixed
emotion label set. -/
def emotionColors : List (String × String) :=
  [("happy", "text-yellow-400"), ("sad", "text-blue-400"), ("angry", "text-red-400"),
   ("neutral", "text-gray-400"), ("fear", "text-purple-400"), ("disgust", "text-green-400"),
   ("surprise", "text-pink-400")]

/-- getEmotionColor from page.tsx: colors[emotion.toLowerCase()] || "text-white". -/
def getEmotionColor (emotion : String) : String :=
  (emotionColors.lookup emotion.toLower).getD "text-white"

/-- The fixed 7-label emotion set: the keys of the getEmotionColor table. -/
def emotionLabels : List String := emotionColors.map Prod.fst

/-- Modelled from the spec: the fixed feature dimension K of the external
ComParE_2016-style extractor (6373 functionals). -/
def featureDim : Nat := 6373

/-- Modelled from the spec: the model kind tag of a ModelDescriptor. -/
inductive ModelKind where
  | classical
  | neural
deriving DecidableEq

/-- Modelled from the spec: the per-model metadata precomputed by the
registry at startup. -/
structure ModelDescriptor where
  name : String
  kind : ModelKind
  expected_dimension : Nat
  requires_scaling : Bool
  supports_probability : Bool
deriving DecidableEq

/-- Modelled from the spec: the registry contents, one descriptor per model
artifact listed under backend/saved_models in the README (the shared label
encoder and the shared neural-net scaler are held separately).  SVM is the
classical model without native probability support; the neural network and
the tuned MLP use the shared scaler. -/
def modelRegistry : List ModelDescriptor :=
  [{ name := "KNN", kind := .classical, expected_dimension := featureDim,
     requires_scaling := false, supports_probability := true },
   { name := "KNN_tuned", kind := .classical, expected_dimension := featureDim,
     requires_scaling := false, supports_probability := true },
   { name := "Logistic_Regression", kind := .classical, expected_dimension := featureDim,
     requires_scaling := false, supports_probability := true },
   { name := "MLP_best", kind := .classical, expected_dimension := featureDim,
     requires_scaling := true, supports_probability := true },
   { name := "Neural_Network", kind := .neural, expected_dimension := featureDim,
     requires_scaling := true, supports_probability := true },
   { name := "Random_Forest", kind := .classical, expected_dimension := featureDim,
     requires_scaling := false, supports_probability := true },
   { name := "SVM", kind := .classical, expected_dimension := featureDim,
     requires_scaling := false, supports_probability := false },
   { name := "XGBoost", kind := .classical, expected_dimension := featureDim,
     requires_scaling := false, supports_probability := true }]

/-- Modelled from the spec: registry lookup by model name; none means
UnknownModel. -/
def lookupModel (name : String) : Option ModelDescriptor :=
  modelRegistry.find? (fun md => md.name == name)

/-- Modelled from the spec: the ordered model-name listing exposed to the
listing/health collaborators. -/
def listModelNames : List String := modelRegistry.map (fun md => md.name)

/-- Modelled from the spec: the loaded-model count exposed to the health
collaborator. -/
def loadedModelCount : Nat := modelRegistry.length

/-- Modelled from the spec: the shared LabelEncoder direction used by the
ResultNormalizer, mapping a class index to an emotion name. -/
def decodeLabel (i : Nat) : Option String := emotionLabels[i]?

/-- Modelled from the spec: a decoded audio clip (PCM samples, sample rate,
total duration in seconds). -/
structure AudioClip where
  samples : List ℚ
  sampleRate : ℚ
  duration : ℚ
deriving DecidableEq

/-- Modelled from the spec: trimming a clip to a validated chorus window;
the trimmed clip covers exactly the sub-range, so its duration is the window
length. -/
def trimClip (clip : AudioClip) (s e : ℚ) : AudioClip :=
  { clip with duration := e - s }

/-- Modelled from the spec: the observable outcome of one run of the
external feature-extraction subprocess. -/
inductive ExtractOut where
  | timeout
  | toolkitFailure
  | output (v : List ℚ)

/-- Modelled from the spec: the kinds of FeatureExtractionError. -/
inductive ExtractErrKind where
  | timeout
  | toolkitFailure
  | malformedOutput
deriving DecidableEq

/-- Modelled from the spec: the kinds of InferenceError. -/
inductive InferErrKind where
  | dimensionMismatch
  | modelException
deriving DecidableEq

/-- Modelled from the spec: the pipeline error taxonomy. -/
inductive PipelineError where
  | UnsupportedFormat
  | CorruptAudio
  | InvalidTimeRange
  | UnknownModel
  | FeatureExtractionError (kind : ExtractErrKind)
  | InferenceError (kind : InferErrKind)
  | InternalError
deriving DecidableEq

/-- Modelled from the spec: the external dependencies of one pipeline run —
the audio decoder, the feature-extraction subprocess, the shared neural-net
scaler, the pretrained per-model scoring functions, the measured inference
duration and the current timestamp.  All are fixed for the process lifetime,
so the pipeline is a pure function of this environment and the request. -/
structure ExternalEnv where
  decode : List Nat → Option AudioClip
  extract : AudioClip → ExtractOut
  scaler : List ℚ → List ℚ
  scoreOf : String → List ℚ → List ℚ
  inferMs : ℚ
  now : String

/-- The maximum of a list of scores, none on the empty list. -/
def maxScore : List ℚ → Option ℚ
  | [] => none
  | x :: xs =>
    match maxScore xs with
    | none => some x
    | some m => some (max x m)

/-- Modelled from the spec: arg-max with the explicit tie-break rule — the
lowest index attaining the maximum score (indexOf returns the first
occurrence). -/
def argmaxIdx (l : List ℚ) : Nat :=
  match maxScore l with
  | none => 0
  | some m => l.indexOf m

/-- Modelled from the spec: the per-model preprocessing step — the shared
scaler is applied exactly when the descriptor requires scaling. -/
def scaledInput (env : ExternalEnv) (md : ModelDescriptor) (v : List ℚ) : List ℚ :=
  if md.requires_scaling then env.scaler v else v

/-- Modelled from the spec: the per-class scores produced by the selected
model on the (possibly scaled) feature vector. -/
def modelScores (env : ExternalEnv) (md : ModelDescriptor) (v : List ℚ) : List ℚ :=
  env.scoreOf md.name (scaledInput env md v)

/-- Modelled from the spec: the PredictionDispatcher and ResultNormalizer —
dimension check, optional scaling, arg-max inference with the lowest-index
tie-break, confidence as the maximum probability when the model supports
probabilities (absent otherwise), and label decoding. -/
def dispatchModel (env : ExternalEnv) (md : ModelDescriptor) (v : List ℚ) :
    Except PipelineError PredictionResult :=
  if v.length = md.expected_dimension then
    match maxScore (modelScores env md v) with
    | none => .error .InternalError
    | some m =>
      match decodeLabel (argmaxIdx (modelScores env md v)) with
      | none => .error .InternalError
      | some em =>
        .ok { emotion := em,
              confidence := if md.supports_probability then some m else none,
              model_used := md.name,
              processing_time_ms := env.inferMs,
              timestamp := env.now }
  else .error (.InferenceError .dimensionMismatch)

/-- Modelled from the spec: the FeatureExtractor stage and everything after
it.  The Boolean of the pair records that the external extractor was
invoked.  A timeout or toolkit failure, or an output of the wrong dimension,
short-circuits with a FeatureExtractionError. -/
def runExtraction (env : ExternalEnv) (md : ModelDescriptor) (clip : AudioClip) :
    Except PipelineError PredictionResult × Bool :=
  match env.extract clip with
  | .timeout => (.error (.FeatureExtractionError .timeout), true)
  | .toolkitFailure => (.error (.FeatureExtractionError .toolkitFailure), true)
  | .output v =>
    if v.length = featureDim then (dispatchModel env md v, true)
    else (.error (.FeatureExtractionError .malformedOutput), true)

/-- Modelled from the spec: one full pipeline run.  Checks in order: model
lookup (UnknownModel first, fail-fast), file format, decoding, then — when
both chorus bounds are given — the window validation 0 ≤ start < end ≤
duration, failing with InvalidTimeRange before the extractor is invoked.
A one-sided or absent window analyses the full clip.  The Boolean of the
pair records whether feature extraction was performed. -/
def runPipeline (env : ExternalEnv) (bytes : List Nat) (fileName : List Char)
    (modelName : String) (chorusStart chorusEnd : Option ℚ) :
    Except PipelineError PredictionResult × Bool :=
  match lookupModel modelName with
  | none => (.error .UnknownModel, false)
  | some md =>
    if isValidAudioName fileName then
      match env.decode bytes with
      | none => (.error .CorruptAudio, false)
      | some clip =>
        match chorusStart, chorusEnd with
        | some s, some e =>
          if 0 ≤ s ∧ s < e ∧ e ≤ clip.duration then
            runExtraction env md (trimClip clip s e)
          else (.error .InvalidTimeRange, false)
        | _, _ => runExtraction env md clip
    else (.error .UnsupportedFormat, false)

/-- A concrete decoded clip used by the witnesses: ten seconds of audio. -/
def clipW : AudioClip := { samples := [0], sampleRate := 44100, duration := 10 }

/-- A concrete environment used by the witnesses: decoding always yields the
ten-second clip, extraction yields an all-zero vector of the fixed dimension,
the scaler is the identity and every model outputs the distribution
[1, 0, 0, 0, 0, 0, 0]. -/
def envW : ExternalEnv :=
  { decode := fun _ => some clipW,
    extract := fun _ => ExtractOut.output (List.replicate featureDim 0),
    scaler := fun v => v,
    scoreOf := fun _ _ => [1, 0, 0, 0, 0, 0, 0],
    inferMs := 5,
    now := "2026-01-01T00:00:00Z" }

/-- The result produced by envW for the KNN scenario. -/
def resultW : PredictionResult :=
  { emotion := "happy", confidence := some 1, model_used := "KNN",
    processing_time_ms := 5, timestamp := "2026-01-01T00:00:00Z" }

/-- The registry descriptor of the KNN model (the head of modelRegistry). -/
def mdKNN : ModelDescriptor :=
  { name := "KNN", kind := .classical, expected_dimension := featureDim,
    requires_scaling := false, supports_probability := true }

/-- A previously stored result used by the C6 counterexample. -/
def staleResult : PredictionResult :=
  { emotion := "sad", confidence := none, model_used := "SVM",
    processing_time_ms := 3, timestamp := "2025-12-31T00:00:00Z" }

/-- A component state holding a stale result and no selected file, used by
the C6 counterexample. -/
def staleState : SubmitState :=
  { audioFile := none, selectedModel := "KNN", isLoading := false,
    result := some staleResult, error := "" }

theorem maxScore_eq_none {l : List ℚ} : maxScore l = none ↔ l = [] := by
  cases l with
  | nil => simp [maxScore]
  | cons x xs =>
    simp only [maxScore]
    cases h : maxScore xs <;> simp

theorem maxScore_mem : ∀ {l : List ℚ} {m : ℚ}, maxScore l = some m → m ∈ l := by
  intro l
  induction l with
  | nil => intro m h; simp [maxScore] at h
  | cons x xs ih =>
    intro m h
    simp only [maxScore] at h
    cases hx : maxScore xs with
    | none =>
      rw [hx] at h
      simp only [Option.some.injEq] at h
      subst h
      exact List.mem_cons_self x xs
    | some m0 =>
      rw [hx] at h
      simp only [Option.some.injEq] at h
      subst h
      rcases max_choice x m0 with h1 | h1 <;> rw [h1]
      · exact List.mem_cons_self x xs
      · exact List.mem_cons_of_mem x (ih hx)

theorem le_maxScore : ∀ {l : List ℚ} {a m : ℚ}, a ∈ l → maxScore l = some m → a ≤ m := by
  intro l
  induction l with
  | nil => intro a m ha _; simp at ha
  | cons x xs ih =>
    intro a m ha h
    simp only [maxScore] at h
    cases hx : maxScore xs with
    | none =>
      rw [hx] at h
      simp only [Option.some.injEq] at h
      subst h
      have hnil : xs = [] := maxScore_eq_none.mp hx
      subst hnil
      simp at ha
      subst ha
      exact le_refl a
    | some m0 =>
      rw [hx] at h
      simp only [Option.some.injEq] at h
      subst h
      rcases List.mem_cons.mp ha with rfl | hmem
      · exact le_max_left _ _
      · exact le_trans (ih hmem hx) (le_max_right _ _)

theorem argmaxIdx_getElem {l : List ℚ} {m : ℚ} (h : maxScore l = some m) :
    l[argmaxIdx l]? = some m := by
  unfold argmaxIdx
  rw [h]
  exact List.getElem?_indexOf (maxScore_mem h)

theorem getElem_ne_of_lt_indexOf {l : List ℚ} {a : ℚ} {i : Nat}
    (h : i < l.indexOf a) (hi : i < l.length) : l[i] ≠ a := by
  intro hEq
  have := List.not_of_lt_findIdx (p := (· == a)) (by simpa [List.indexOf] using h)
  simp_all

theorem argmaxIdx_le {l : List ℚ} {m : ℚ} (h : maxScore l = some m)
    {j : Nat} (hj : l[j]? = some m) : argmaxIdx l ≤ j := by
  unfold argmaxIdx
  rw [h]
  by_contra hlt
  push_neg at hlt
  rw [List.getElem?_eq_some] at hj
  obtain ⟨hjlen, hget⟩ := hj
  exact getElem_ne_of_lt_indexOf hlt hjlen hget

theorem lookupModel_name {n : String} {md : ModelDescriptor}
    (h : lookupModel n = some md) : md.name = n := by
  have := List.find?_some h
  simpa using this

theorem failureMessage_ne_empty (d : Option String) : failureMessage d ≠ "" := by
  cases d with
  | none => decide
  | some s =>
    show (if s = "" then genericPredictError else s) ≠ ""
    by_cases hs : s = ""
    · rw [if_pos hs]; decide
    · rw [if_neg hs]; exact hs

theorem lowerName_append (p t : List Char) :
    lowerName (p ++ t) = lowerName p ++ lowerName t :=
  List.map_append Char.toLower p t

theorem endsWithChars_append (p s : List Char) : endsWithChars (p ++ s) s = true := by
  unfold endsWithChars
  rw [List.isSuffixOf_iff_suffix]
  exact List.suffix_append p s

theorem dispatchModel_ok_spec {env : ExternalEnv} {md : ModelDescriptor}
    {v : List ℚ} {r : PredictionResult} (h : dispatchModel env md v = .ok r) :
    r.emotion ∈ emotionLabels ∧
    r.processing_time_ms = env.inferMs ∧
    r.model_used = md.name ∧
    r.timestamp = env.now ∧
    (r.confidence = none ∨
      ∃ u m, maxScore (env.scoreOf md.name u) = some m ∧ r.confidence = some m) := by
  unfold dispatchModel at h
  by_cases hdim : v.length = md.expected_dimension
  · rw [if_pos hdim] at h
    cases hmax : maxScore (modelScores env md v) with
    | none => rw [hmax] at h; simp at h
    | some m =>
      rw [hmax] at h
      cases hdl : decodeLabel (argmaxIdx (modelScores env md v)) with
      | none => rw [hdl] at h; simp at h
      | some em =>
        rw [hdl] at h
        simp only [Except.ok.injEq] at h
        subst h
        refine ⟨?_, rfl, rfl, rfl, ?_⟩
        · unfold decodeLabel at hdl
          rw [List.getElem?_eq_some] at hdl
          obtain ⟨hi, rfl⟩ := hdl
          exact List.getElem_mem hi
        · by_cases hsp : md.supports_probability
          · exact Or.inr ⟨scaledInput env md v, m, hmax, by simp [hsp]⟩
          · exact Or.inl (by simp [hsp])
  · rw [if_neg hdim] at h
    simp at h

theorem runExtraction_ok_spec {env : ExternalEnv} {md : ModelDescriptor}
    {clip : AudioClip} {r : PredictionResult} {b : Bool}
    (h : runExtraction env md clip = (.ok r, b)) :
    r.emotion ∈ emotionLabels ∧
    r.processing_time_ms = env.inferMs ∧
    r.model_used = md.name ∧
    r.timestamp = env.now ∧
    (r.confidence = none ∨
      ∃ u m, maxScore (env.scoreOf md.name u) = some m ∧ r.confidence = some m) := by
  unfold runExtraction at h
  cases hx : env.extract clip with
  | timeout => rw [hx] at h; simp at h
  | toolkitFailure => rw [hx] at h; simp at h
  | output v =>
    rw [hx] at h
    dsimp only at h
    by_cases hlen : v.length = featureDim
    · rw [if_pos hlen] at h
      rw [Prod.mk.injEq] at h
      exact dispatchModel_ok_spec h.1
    · rw [if_neg hlen] at h
      simp at h

theorem runPipeline_ok_spec {env : ExternalEnv} {bytes : List Nat}
    {fileName : List Char} {modelName : String} {cs ce : Option ℚ}
    {r : PredictionResult} {b : Bool}
    (h : runPipeline env bytes fileName modelName cs ce = (.ok r, b)) :
    r.emotion ∈ emotionLabels ∧
    r.processing_time_ms = env.inferMs ∧
    r.model_used = modelName ∧
    r.timestamp = env.now ∧
    (r.confidence = none ∨
      ∃ u m, maxScore (env.scoreOf modelName u) = some m ∧ r.confidence = some m) := by
  unfold runPipeline at h
  cases hmd : lookupModel modelName with
  | none => rw [hmd] at h; simp at h
  | some md =>
    rw [hmd] at h
    dsimp only at h
    have hname : md.name = modelName := lookupModel_name hmd
    subst hname
    by_cases hfmt : isValidAudioName fileName
    · rw [if_pos hfmt] at h
      cases hdec : env.decode bytes with
      | none => rw [hdec] at h; simp at h
      | some clip =>
        rw [hdec] at h
        dsimp only at h
        cases cs with
        | none => exact runExtraction_ok_spec h
        | some s =>
          cases ce with
          | none => exact runExtraction_ok_spec h
          | some e =>
            dsimp only at h
            by_cases hrange : 0 ≤ s ∧ s < e ∧ e ≤ clip.duration
            · rw [if_pos hrange] at h
              exact runExtraction_ok_spec h
            · rw [if_neg hrange] at h
              simp at h
    · rw [if_neg hfmt] at h
      simp at h

/-- Claim C1: every successful prediction result record has exactly the five
fields emotion (string), confidence (number or absent), model_used (string),
processing_time_ms (number) and timestamp (string); its confidence is either
absent or a number, never any other shape. -/
theorem C1_result_record_shape (r : PredictionResult) :
    r = PredictionResult.mk r.emotion r.confidence r.model_used
          r.processing_time_ms r.timestamp ∧
    (r.confidence = none ∨ ∃ c : ℚ, r.confidence = some c) := by
  refine ⟨rfl, ?_⟩
  cases h : r.confidence with
  | none => exact Or.inl rfl
  | some c => exact Or.inr ⟨c, rfl⟩

/-- Claim C2: a selected or dropped file is accepted as the audio input iff
its lowercased name ends in ".mp3" or ".wav"; any other file nulls the stored
audio file and reports the unsupported-format error, and an accepted file is
stored with the error cleared — in both handleFileChange and handleDrop. -/
theorem C2_file_acceptance (st : UploadState) (f : FileRec) :
    ((handleFileChange st f).audioFile = some f ↔ isValidAudioName f.name = true) ∧
    (handleFileChange st f).audioFile =
      (if isValidAudioName f.name then some f else none) ∧
    (handleFileChange st f).error =
      (if isValidAudioName f.name then "" else unsupportedFileError) ∧
    ((handleDrop st f).audioFile = some f ↔ isValidAudioName f.name = true) ∧
    (handleDrop st f).audioFile =
      (if isValidAudioName f.name then some f else none) ∧
    (handleDrop st f).error =
      (if isValidAudioName f.name then "" else unsupportedFileError) := by
  cases hv : isValidAudioName f.name <;>
    simp [handleFileChange, handleDrop, hv]

/-- Claim C3: absent and zero confidence are distinguishable in every result:
the confidence section renders iff confidence is non-null, so confidence 0
renders a 0 percent score while null renders nothing; and a present
confidence is in [0,1] (spec-modelled backend: confidence is the maximum of
a per-class probability distribution). -/
theorem C3_confidence_zero_vs_absent (env : ExternalEnv) (bytes : List Nat)
    (fileName : List Char) (modelName : String) (cs ce : Option ℚ)
    (r : PredictionResult) (invoked : Bool)
    (hprob : ∀ name u x, x ∈ env.scoreOf name u → 0 ≤ x ∧ x ≤ 1)
    (hrun : runPipeline env bytes fileName modelName cs ce = (.ok r, invoked)) :
    (showsConfidenceSection r = true ↔ r.confidence ≠ none) ∧
    (∀ c, r.confidence = some c → 0 ≤ c ∧ c ≤ 1) ∧
    (r.confidence = some 0 → showsConfidenceSection r = true ∧
      confidenceDisplayPercent r = some 0) ∧
    (r.confidence = none → showsConfidenceSection r = false ∧
      confidenceDisplayPercent r = none) := by
  obtain ⟨-, -, -, -, hconf⟩ := runPipeline_ok_spec hrun
  refine ⟨?_, ?_, ?_, ?_⟩
  · cases h : r.confidence <;> simp [showsConfidenceSection, h]
  · intro c hc
    rcases hconf with hnone | ⟨u, m, hmax, hcm⟩
    · rw [hnone] at hc; cases hc
    · rw [hcm] at hc
      injection hc with hc
      subst hc
      exact hprob modelName u m (maxScore_mem hmax)
  · intro h0
    simp [showsConfidenceSection, confidenceDisplayPercent, h0]
  · intro h0
    simp [showsConfidenceSection, confidenceDisplayPercent, h0]

/-- Claim C4 (spec-modelled): the registry loads exactly 8 model artifacts
(the shared label encoder and the shared neural-net scaler are single
separate values), and the loaded-model count exposed to the health
collaborator equals 8. -/
theorem C4_registry_loads_eight :
    loadedModelCount = 8 ∧ listModelNames.length = 8 ∧
    listModelNames = ["KNN", "KNN_tuned", "Logistic_Regression", "MLP_best",
      "Neural_Network", "Random_Forest", "SVM", "XGBoost"] :=
  ⟨rfl, rfl, rfl⟩

/-- Claim C5 (spec-modelled): for a valid ten-second WAV input predicted with
model KNN and no chorus window, a returned result carries an emotion from the
fixed 7-label set and a strictly positive processing_time_ms. -/
theorem C5_knn_wav_scenario (env : ExternalEnv) (bytes : List Nat)
    (fileName : List Char) (clip : AudioClip) (r : PredictionResult)
    (invoked : Bool)
    (hfmt : endsWithChars (lowerName fileName) wavExt = true)
    (hdec : env.decode bytes = some clip)
    (hdur : clip.duration = 10)
    (hms : 0 < env.inferMs)
    (hrun : runPipeline env bytes fileName "KNN" none none = (.ok r, invoked)) :
    r.emotion ∈ emotionLabels ∧ 0 < r.processing_time_ms := by
  obtain ⟨hem, hpt, -, -, -⟩ := runPipeline_ok_spec hrun
  rw [hpt]
  exact ⟨hem, hms⟩

/-- Claim C6 counterexample: a submission with no selected file errors (sets
the missing-file message) yet leaves a previously stored result in place, so
the claim that every erroring submission ends with a null stored result is
false at this concrete input. -/
theorem C6_counterexample :
    (handleSubmit staleState (RequestOutcome.failure none)).error ≠ "" ∧
    (handleSubmit staleState (RequestOutcome.failure none)).result ≠ none := by
  decide

/-- Claim C6 (amended): for a submission that passes the input guards (a file
is selected and a model chosen), a failed request leaves a null stored result
— cleared before the request and assigned only on success — together with a
non-empty error message, and a successful request stores exactly the response
record with the error cleared. -/
theorem C6_no_partial_result (st : SubmitState) (f : FileRec) (d : Option String)
    (hfile : st.audioFile = some f) (hmodel : st.selectedModel ≠ "") :
    (handleSubmit st (RequestOutcome.failure d)).result = none ∧
    (handleSubmit st (RequestOutcome.failure d)).error ≠ "" ∧
    (∀ r0, (handleSubmit st (RequestOutcome.success r0)).result = some r0 ∧
      (handleSubmit st (RequestOutcome.success r0)).error = "") := by
  unfold handleSubmit
  rw [hfile]
  dsimp only
  refine ⟨?_, ?_, ?_⟩
  · rw [if_neg hmodel]
  · rw [if_neg hmodel]
    exact failureMessage_ne_empty d
  · intro r0
    rw [if_neg hmodel]
    exact ⟨rfl, rfl⟩

/-- Claim C7 (spec-modelled): when both chorus bounds are given and
chorus_start is at least chorus_end, or either bound is negative, the
pipeline fails with InvalidTimeRange and feature extraction is never
performed (the invoked flag of the run stays false). -/
theorem C7_invalid_time_range (env : ExternalEnv) (bytes : List Nat)
    (fileName : List Char) (modelName : String) (md : ModelDescriptor)
    (clip : AudioClip) (s e : ℚ)
    (hreg : lookupModel modelName = some md)
    (hfmt : isValidAudioName fileName = true)
    (hdec : env.decode bytes = some clip)
    (hbad : e ≤ s ∨ s < 0 ∨ e < 0) :
    runPipeline env bytes fileName modelName (some s) (some e) =
      (.error .InvalidTimeRange, false) := by
  have hrange : ¬ (0 ≤ s ∧ s < e ∧ e ≤ clip.duration) := by
    rintro ⟨h1, h2, h3⟩
    rcases hbad with hb | hb | hb <;> linarith
  unfold runPipeline
  rw [hreg]
  dsimp only
  rw [if_pos hfmt, hdec]
  dsimp only
  rw [if_neg hrange]

/-- Claim C8 (spec-modelled): prediction is deterministic — identical audio,
model and chorus settings give identical pipeline output — and arg-max
inference resolves ties in the maximum class score to the lowest class
index: the selected index attains the maximum and is at most every index
attaining it. -/
theorem C8_deterministic_tiebreak (env : ExternalEnv) (b1 b2 : List Nat)
    (f1 f2 : List Char) (m1 m2 : String) (cs1 cs2 ce1 ce2 : Option ℚ)
    (hb : b1 = b2) (hf : f1 = f2) (hm : m1 = m2) (hcs : cs1 = cs2)
    (hce : ce1 = ce2) :
    runPipeline env b1 f1 m1 cs1 ce1 = runPipeline env b2 f2 m2 cs2 ce2 ∧
    ∀ (scores : List ℚ) (m : ℚ), maxScore scores = some m →
      scores[argmaxIdx scores]? = some m ∧
      (∀ x ∈ scores, x ≤ m) ∧
      ∀ j, scores[j]? = some m → argmaxIdx scores ≤ j := by
  subst hb hf hm hcs hce
  exact ⟨rfl, fun scores m hmax =>
    ⟨argmaxIdx_getElem hmax, fun x hx => le_maxScore hx hmax,
     fun j hj => argmaxIdx_le hmax hj⟩⟩

/-- Claim C9: the audio-format check is case-insensitive on the file name —
a file whose name ends in any case variant of ".mp3" or ".wav" is accepted,
because the name is lowercased before the extension test. -/
theorem C9_case_insensitive (st : UploadState) (p t : List Char)
    (h : lowerName t = mp3Ext ∨ lowerName t = wavExt) :
    isValidAudioName (p ++ t) = true ∧
    (handleFileChange st ⟨p ++ t⟩).audioFile = some ⟨p ++ t⟩ ∧
    (handleFileChange st ⟨p ++ t⟩).error = "" ∧
    (handleDrop st ⟨p ++ t⟩).audioFile = some ⟨p ++ t⟩ := by
  have hv : isValidAudioName (p ++ t) = true := by
    unfold isValidAudioName
    rw [lowerName_append]
    rcases h with h | h <;> rw [h] <;> simp [endsWithChars_append]
  exact ⟨hv, by simp [handleFileChange, hv], by simp [handleFileChange, hv],
    by simp [handleDrop, hv]⟩

/-- Claim C10: the two chorus bounds are submitted independently —
chorus_start is part of the form data iff its field is non-empty, likewise
chorus_end — so a one-sided window request is producible. -/
theorem C10_chorus_fields_independent (f : FileRec) (modelName cs ce : String) :
    ((∃ v, ("chorus_start", v) ∈ buildFormData f modelName cs ce) ↔ cs ≠ "") ∧
    ((∃ v, ("chorus_end", v) ∈ buildFormData f modelName cs ce) ↔ ce ≠ "") ∧
    (∃ v, ("chorus_start", v) ∈ buildFormData f modelName "5.0" "") ∧
    (∀ v, ("chorus_end", v) ∉ buildFormData f modelName "5.0" "") := by
  refine ⟨?_, ?_, ?_, ?_⟩ <;>
    by_cases hcs : cs = "" <;> by_cases hce : ce = "" <;>
      simp [buildFormData, hcs, hce]

theorem envW_run :
    runPipeline envW [0] ("song.wav".data) "KNN" none none =
      (.ok resultW, true) := by
  have hlen : (List.replicate featureDim (0 : ℚ)).length = featureDim :=
    List.length_replicate featureDim 0
  have hlook : lookupModel "KNN" = some mdKNN := rfl
  have hfmt : isValidAudioName ("song.wav".data) = true := by decide
  have hdisp : dispatchModel envW mdKNN (List.replicate featureDim 0) = .ok resultW := by
    unfold dispatchModel
    rw [if_pos (show (List.replicate featureDim (0 : ℚ)).length =
      mdKNN.expected_dimension from hlen)]
    rfl
  unfold runPipeline
  rw [hlook]
  dsimp only
  rw [if_pos hfmt]
  rw [show envW.decode [0] = some clipW from rfl]
  dsimp only
  unfold runExtraction
  rw [show envW.extract clipW = ExtractOut.output (List.replicate featureDim 0) from rfl]
  dsimp only
  rw [if_pos hlen, hdisp]

/-- Witness for C3: the concrete environment, run and result discharge the
hypotheses, and the conclusion evaluates at the run's result. -/
theorem C3_confidence_zero_vs_absent_witness :
    (showsConfidenceSection resultW = true ↔ resultW.confidence ≠ none) ∧
    (∀ c, resultW.confidence = some c → 0 ≤ c ∧ c ≤ 1) ∧
    (resultW.confidence = some 0 → showsConfidenceSection resultW = true ∧
      confidenceDisplayPercent resultW = some 0) ∧
    (resultW.confidence = none → showsConfidenceSection resultW = false ∧
      confidenceDisplayPercent resultW = none) :=
  C3_confidence_zero_vs_absent envW [0] ("song.wav".data) "KNN" none none
    resultW true
    (by
      intro name u x hx
      simp only [envW, List.mem_cons, List.not_mem_nil, or_false] at hx
      rcases hx with rfl | rfl | rfl | rfl | rfl | rfl | rfl <;> norm_num)
    envW_run

/-- Witness for C5: the ten-second WAV scenario with model KNN on the
concrete environment. -/
theorem C5_knn_wav_scenario_witness :
    resultW.emotion ∈ emotionLabels ∧ 0 < resultW.processing_time_ms :=
  C5_knn_wav_scenario envW [0] ("song.wav".data) clipW resultW true
    (by decide) rfl rfl (by norm_num [envW]) envW_run

/-- Witness for C6: a guarded submission with a selected file and model,
whose request fails with no detail. -/
theorem C6_no_partial_result_witness :
    (handleSubmit ⟨some ⟨"a.wav".data⟩, "KNN", false, some staleResult, ""⟩
        (RequestOutcome.failure none)).result = none ∧
    (handleSubmit ⟨some ⟨"a.wav".data⟩, "KNN", false, some staleResult, ""⟩
        (RequestOutcome.failure none)).error ≠ "" ∧
    (∀ r0, (handleSubmit ⟨some ⟨"a.wav".data⟩, "KNN", false, some staleResult, ""⟩
        (RequestOutcome.success r0)).result = some r0 ∧
      (handleSubmit ⟨some ⟨"a.wav".data⟩, "KNN", false, some staleResult, ""⟩
        (RequestOutcome.success r0)).error = "") :=
  C6_no_partial_result ⟨some ⟨"a.wav".data⟩, "KNN", false, some staleResult, ""⟩
    ⟨"a.wav".data⟩ none rfl (by decide)

/-- Witness for C7: the spec scenario — an MP3 with chorus_start 5 and
chorus_end 3 yields InvalidTimeRange with the extractor never invoked. -/
theorem C7_invalid_time_range_witness :
    runPipeline envW [0] ("track.mp3".data) "KNN" (some 5) (some 3) =
      (.error .InvalidTimeRange, false) :=
  C7_invalid_time_range envW [0] ("track.mp3".data) "KNN"
    { name := "KNN", kind := .classical, expected_dimension := featureDim,
      requires_scaling := false, supports_probability := true }
    clipW 5 3 rfl (by decide) rfl (Or.inl (by norm_num))

/-- Witness for C8: identical concrete inputs, with the tie-break property
instantiated over all score lists. -/
theorem C8_deterministic_tiebreak_witness :
    runPipeline envW [0] ("song.wav".data) "KNN" none none =
      runPipeline envW [0] ("song.wav".data) "KNN" none none ∧
    ∀ (scores : List ℚ) (m : ℚ), maxScore scores = some m →
      scores[argmaxIdx scores]? = some m ∧
      (∀ x ∈ scores, x ≤ m) ∧
      ∀ j, scores[j]? = some m → argmaxIdx scores ≤ j :=
  C8_deterministic_tiebreak envW [0] [0] ("song.wav".data) ("song.wav".data)
    "KNN" "KNN" none none none none rfl rfl rfl rfl rfl

/-- Witness for C9: the upper-case name SONG.MP3 is accepted by both
handlers from an empty upload state. -/
theorem C9_case_insensitive_witness :
    isValidAudioName ("SONG".data ++ ".MP3".data) = true ∧
    (handleFileChange ⟨none, "", false⟩ ⟨"SONG".data ++ ".MP3".data⟩).audioFile =
      some ⟨"SONG".data ++ ".MP3".data⟩ ∧
    (handleFileChange ⟨none, "", false⟩ ⟨"SONG".data ++ ".MP3".data⟩).error = "" ∧
    (handleDrop ⟨none, "", false⟩ ⟨"SONG".data ++ ".MP3".data⟩).audioFile =
      some ⟨"SONG".data ++ ".MP3".data⟩ :=
  C9_case_insensitive ⟨none, "", false⟩ ("SONG".data) (".MP3".data)
    (Or.inl (by decide))
